import Mathlib

/-!
Shallow embedding of `src/quiz_app.py`, a Streamlit quiz application.

The question table (`data_df`) is modelled as a `List Row`, where `Row.idx`
is the pandas row index (`df.index`, the stable 0-based row identity) and the
remaining fields are the sheet columns used by the logic.  The two
session-local counter dictionaries (`st.session_state.attempted_counts`,
`st.session_state.incorrect_attempt_counts`, built by `Series.to_dict()`)
are modelled as association lists `List (Nat × Nat)` keyed by row index.
Streamlit side effects are made explicit: `st.error`/`st.success` messages
become returned `List String`, and Google-Sheet cell writes become a
returned write log.
-/

namespace QuizApp

/-- One row of the question table, with the columns the app reads.
`idx` is the pandas DataFrame index (row identity); `attempted` and
`incorrect` are the persisted `Attempted` / `Incorrect attempt` columns
after the numeric coercion in `load_data_from_gsheets`. -/
structure Row where
  idx : Nat
  chapter : Int
  questionNo : Int
  question : String
  optionA : String
  optionB : String
  optionC : String
  optionD : String
  correctAnswer : String
  reason : String
  attempted : Nat
  incorrect : Nat
  deriving DecidableEq, Repr

/-- `dict.get(k, 0)` on a counter dictionary (association list keyed by row
index): the value of the first entry with key `k`, defaulting to 0. -/
def dictGet : List (Nat × Nat) → Nat → Nat
  | [], _ => 0
  | (a, b) :: rest, k => if a = k then b else dictGet rest k

/-- `dict[k] = v` on a counter dictionary: replaces the value stored at an
existing key `k` (a no-op when `k` is absent; in the Python program the key
is always present, since both dictionaries are built from the full
DataFrame index). -/
def dictSet (d : List (Nat × Nat)) (k : Nat) (v : Nat) : List (Nat × Nat) :=
  d.map (fun kv => if kv.1 = k then (k, v) else kv)

/-- Auxiliary for `pySplit`: walks the character list, cutting at each
separator occurrence. -/
def pySplitAux (c : Char) : List Char → List Char → List String
  | [], acc => [String.mk acc.reverse]
  | x :: xs, acc =>
      if x = c then String.mk acc.reverse :: pySplitAux c xs []
      else pySplitAux c xs (x :: acc)

/-- Python `s.split(c)` for a one-character separator (also the behaviour
of `str.split('-')` / `str.split(',')` used by the app): the pieces of `s`
between occurrences of `c`; never empty, `[""]` on the empty string. -/
def pySplit (c : Char) (s : String) : List String :=
  pySplitAux c s.toList []

/-- Python `s.strip()`: the string without leading and trailing whitespace. -/
def pyStrip (s : String) : String :=
  String.mk (((s.toList.dropWhile Char.isWhitespace).reverse.dropWhile
    Char.isWhitespace).reverse)

/-- Decimal digit reading for `pyInt`: `some` of the value of a non-empty
all-digit character list, `none` otherwise. -/
def parseNatChars : List Char → Option Nat
  | [] => none
  | cs => go cs 0
where
  go : List Char → Nat → Option Nat
    | [], acc => some acc
    | c :: cs, acc =>
        if c.isDigit then go cs (acc * 10 + (c.toNat - 48)) else none

/-- Python `int(s)`: strips surrounding whitespace, accepts an optional
`+`/`-` sign followed by one or more digits; anything else raises
`ValueError` (modelled as `none`). -/
def pyInt (s : String) : Option Int :=
  match (pyStrip s).toList with
  | '+' :: rest => (parseNatChars rest).map Int.ofNat
  | '-' :: rest => (parseNatChars rest).map (fun n => -(n : Int))
  | t => (parseNatChars t).map Int.ofNat

/-- Python `s.lower()`. -/
def pyLower (s : String) : String :=
  String.mk (s.toList.map Char.toLower)

/-- Python `s.upper()`. -/
def pyUpper (s : String) : String :=
  String.mk (s.toList.map Char.toUpper)

/-- `sorted(df['Chapter'].unique().tolist())`: the chapter numbers present
in the table, without duplicates, in ascending order. -/
def availableChapters (table : List Row) : List Int :=
  ((table.map Row.chapter).dedup).insertionSort (fun a b => a ≤ b)

/-- The comprehension `[int(ch.strip()) for ch in tokens]` with its
`ValueError` propagation: `none` as soon as one token fails to parse. -/
def pyIntList : List String → Option (List Int)
  | [] => some []
  | t :: ts =>
      match pyInt (pyStrip t) with
      | none => none
      | some n =>
          match pyIntList ts with
          | none => none
          | some ns => some (n :: ns)

/-- `parse_chapter_input(df, chapter_input_str)`.  Returns the selected
chapter list together with the `st.error` message emitted on failure
(`none` when no error was shown).  Every error path of the Python function
returns the empty list alongside its message.  The range branch mirrors
`start, end = map(int, s.split('-'))`: any token count other than two, or
a non-integer token, raises the `ValueError` the handler turns into the
range-format error (Python `int` itself strips whitespace). -/
def parse_chapter_input (table : List Row) (chapter_input_str : String) :
    List Int × Option String :=
  let all_available_chapters := availableChapters table
  if chapter_input_str = "all" then
    (all_available_chapters, none)
  else if chapter_input_str.toList.contains '-' then
    match pySplit '-' chapter_input_str with
    | [s1, s2] =>
        match pyInt s1, pyInt s2 with
        | some s, some e =>
            (all_available_chapters.filter (fun ch => s ≤ ch ∧ ch ≤ e), none)
        | _, _ => ([], some "Invalid range format. Please use one like 2-5.")
    | _ => ([], some "Invalid range format. Please use one like 2-5.")
  else
    match pyIntList (pySplit ',' chapter_input_str) with
    | some chs =>
        if chs.all (fun ch => all_available_chapters.contains ch) then
          (chs, none)
        else
          ([], some "Some entered chapters do not exist. Please check the chapter numbers.")
    | none =>
        ([], some "Invalid input format. Please use comma-separated numbers or all or a range.")

/-- `get_question_counts_streamlit(df, selected_chapters, attempted_counts,
incorrect_attempt_counts)`: (total, incorrect, new) over the chapter-filtered
rows, using `dict.get(idx, 0)` on the counter dictionaries. -/
def get_question_counts_streamlit (table : List Row) (selected_chapters : List Int)
    (attempted_counts incorrect_attempt_counts : List (Nat × Nat)) :
    Nat × Nat × Nat :=
  let filtered := table.filter (fun r => selected_chapters.contains r.chapter)
  let total := filtered.length
  let incorrectCount := (filtered.filter (fun r => 0 < dictGet incorrect_attempt_counts r.idx)).length
  let newCount := (filtered.filter (fun r => dictGet attempted_counts r.idx = 0)).length
  (total, incorrectCount, newCount)

/-- The three practice modes stored in `st.session_state.practice_mode`. -/
inductive Mode where
  | normal
  | incorrect
  | new
  deriving DecidableEq, Repr

/-- `get_questions_for_mode_streamlit(df, selected_chapters, mode,
attempted_counts, incorrect_attempt_counts)`.  The `incorrect` and `new`
branches first collect the dictionary keys whose stored count satisfies the
mode predicate (`incorrect_q_indices` / `new_q_indices`) and then keep the
chapter-filtered rows whose index is in that list, exactly as the Python
`filtered_df.index.isin(...)` does. -/
def get_questions_for_mode_streamlit (table : List Row) (selected_chapters : List Int)
    (mode : Mode) (attempted_counts incorrect_attempt_counts : List (Nat × Nat)) :
    List Row :=
  let filtered := table.filter (fun r => selected_chapters.contains r.chapter)
  match mode with
  | .normal => filtered
  | .incorrect =>
      let incorrect_q_indices :=
        (incorrect_attempt_counts.filter (fun kv => 0 < kv.2)).map Prod.fst
      filtered.filter (fun r => incorrect_q_indices.contains r.idx)
  | .new =>
      let new_q_indices :=
        (attempted_counts.filter (fun kv => kv.2 = 0)).map Prod.fst
      filtered.filter (fun r => new_q_indices.contains r.idx)

/-- `quiz_pool_df.sample(n=num_questions)`: sampling without replacement,
with the randomness supplied by an oracle of index choices.  At each step
the oracle picks (modulo the remaining pool size) one remaining row, which
is removed from the pool before the next step — the standard model of
pandas' without-replacement sampling. -/
def sampleWithoutReplacement : List Row → Nat → (Nat → Nat) → List Row
  | _, 0, _ => []
  | [], _ + 1, _ => []
  | x :: xs, m + 1, oracle =>
      let p := x :: xs
      let i := oracle m % p.length
      p.get ⟨i, Nat.mod_lt _ (by simp [p])⟩ ::
        sampleWithoutReplacement (p.eraseIdx i) m oracle

/-- The values of `st.session_state.quiz_stage`. -/
inductive Stage where
  | chapterSelection
  | modeSelection
  | numQuestionsSelection
  | quizInProgress
  | quizFinished
  deriving DecidableEq, Repr

/-- The session-state fields of the app (`st.session_state.*`). -/
structure SessionState where
  quiz_stage : Stage
  data_df : List Row
  selected_chapters : List Int
  practice_mode : Option Mode
  num_questions_to_ask : Nat
  quiz_questions : List Row
  current_question_idx : Nat
  correct_answers_count : Nat
  total_questions_asked : Nat
  attempted_counts : List (Nat × Nat)
  incorrect_attempt_counts : List (Nat × Nat)
  deriving DecidableEq, Repr

/-- The `Confirm Chapters` handler of the `chapter_selection` stage: parse
the input; on a non-empty result store the selection and move to
`mode_selection`; otherwise (empty list, Python falsiness) stay unchanged.
The second component is the `st.error` message the parser emitted, if any. -/
def confirmChapters (s : SessionState) (chapter_input : String) :
    SessionState × Option String :=
  let parsed := parse_chapter_input s.data_df chapter_input
  if parsed.1.isEmpty then
    (s, parsed.2)
  else
    ({ s with selected_chapters := parsed.1, quiz_stage := .modeSelection }, parsed.2)

/-- The `Start Quiz` handler of the `num_questions_selection` stage.
`quiz_pool_df` is the mode pool and `max_questions_available` its length;
when `0 < num_questions ≤ max`, the quiz questions are a random sample of
size `num_questions` (or the whole pool when `num_questions` is not below
the maximum), the cursor and score are reset and the stage becomes
`quiz_in_progress`; otherwise the state is unchanged and an error shown. -/
def startQuiz (s : SessionState) (quiz_pool_df : List Row) (num_questions : Nat)
    (oracle : Nat → Nat) : SessionState × Option String :=
  let max_questions_available := quiz_pool_df.length
  if 0 < num_questions ∧ num_questions ≤ max_questions_available then
    let qs := if num_questions < max_questions_available then
        sampleWithoutReplacement quiz_pool_df num_questions oracle
      else quiz_pool_df
    ({ s with num_questions_to_ask := num_questions,
              quiz_questions := qs,
              total_questions_asked := qs.length,
              current_question_idx := 0,
              correct_answers_count := 0,
              quiz_stage := .quizInProgress }, none)
  else
    (s, some "Please enter a number between 1 and the maximum.")

/-- A single-cell write request issued to `update_gsheet_cell`:
(row index, column name, value). -/
abbrev CellWrite := Nat × String × Nat

/-- The `Submit Answer` handler of the `quiz_in_progress` stage (only
reachable when `current_question_idx < total_questions_asked`, i.e. the
current question exists).  Returns the new session state, the cell writes
sent to `update_gsheet_cell` in order, and the feedback messages shown.
Mirrors the source: increment the attempted counter and persist it; then
compare the radio key against the lower-cased `Correct Answer`; on a match
increment the score and persist the incorrect counter reset to 0; on a
mismatch increment and persist the incorrect counter; finally advance the
cursor. -/
def submitAnswer (s : SessionState) (user_choice_key : String) :
    SessionState × List CellWrite × List String :=
  match s.quiz_questions.get? s.current_question_idx with
  | none => (s, [], [])
  | some current_q_data =>
    let original_df_index := current_q_data.idx
    let correct_answer_key := pyLower current_q_data.correctAnswer
    let att := dictSet s.attempted_counts original_df_index
      (dictGet s.attempted_counts original_df_index + 1)
    let w1 : CellWrite := (original_df_index, "Attempted", dictGet att original_df_index)
    if user_choice_key = correct_answer_key then
      let inc := dictSet s.incorrect_attempt_counts original_df_index 0
      ({ s with attempted_counts := att,
                incorrect_attempt_counts := inc,
                correct_answers_count := s.correct_answers_count + 1,
                current_question_idx := s.current_question_idx + 1 },
       [w1, (original_df_index, "Incorrect attempt", dictGet inc original_df_index)],
       ["Correct!"])
    else
      let inc := dictSet s.incorrect_attempt_counts original_df_index
        (dictGet s.incorrect_attempt_counts original_df_index + 1)
      ({ s with attempted_counts := att,
                incorrect_attempt_counts := inc,
                current_question_idx := s.current_question_idx + 1 },
       [w1, (original_df_index, "Incorrect attempt", dictGet inc original_df_index)],
       ["Incorrect. The correct answer was " ++ pyUpper correct_answer_key ++ ".",
        "Reason: " ++ current_q_data.reason])

/-- The external conditions `update_gsheet_cell` runs under: whether the
service-account authentication succeeds, the live header row of the sheet,
and whether the `update_cell` transport call succeeds. -/
structure GsheetEnv where
  authOk : Bool
  headers : List String
  transportOk : Bool
  deriving DecidableEq, Repr

/-- `update_gsheet_cell(row_index, col_name, value)`.  Returns the cell
updates actually performed on the sheet, as (1-based sheet row, 1-based
sheet column, value), and the `st.error` messages shown.  Auth failure and
an unknown column name each report and return without writing; a transport
failure on `update_cell` reports after the attempted write.  The function
never touches `st.session_state`. -/
def update_gsheet_cell (env : GsheetEnv) (row_index : Nat) (col_name : String)
    (value : Nat) : List (Nat × Nat × Nat) × List String :=
  if env.authOk = false then
    ([], ["Error authenticating with Google Sheets or opening sheet."])
  else
    match env.headers.indexOf? col_name with
    | none => ([], ["Column " ++ col_name ++ " not found in Google Sheet headers. Cannot update."])
    | some j =>
        let col_index_to_update := j + 1
        let gsheet_row_number := row_index + 2
        if env.transportOk then
          ([(gsheet_row_number, col_index_to_update, value)], [])
        else
          ([], ["Error updating cell in Google Sheet."])

/-- The `Submit Answer` handler together with its persistence calls: the
session-state update of `submitAnswer`, then each requested cell write
pushed through `update_gsheet_cell` under the given environment.  Returns
the new state, the sheet writes performed, and the error messages from the
write layer. -/
def submitWithPersistence (env : GsheetEnv) (s : SessionState)
    (user_choice_key : String) :
    SessionState × List (Nat × Nat × Nat) × List String :=
  let res := submitAnswer s user_choice_key
  let outs := res.2.1.map (fun w => update_gsheet_cell env w.1 w.2.1 w.2.2)
  (res.1, (outs.map Prod.fst).flatten, (outs.map Prod.snd).flatten)

/-- The `@st.cache_data(ttl=600)` cache wrapping `load_data_from_gsheets`:
the memoised table together with the time it was stored. -/
structure LoadCache where
  value : List Row
  storedAt : Nat
  deriving DecidableEq, Repr

/-- `load_data_from_gsheets()` as seen through its `@st.cache_data(ttl=600)`
decorator: if a cached result younger than 600 seconds exists it is
returned as-is and the function body does not run; otherwise the current
external table is fetched and cached.  (`external` is the table the sheet
holds at call time; the numeric coercions of the body are reflected in the
`Row` fields.) -/
def load_data_from_gsheets (cache : Option LoadCache) (now : Nat)
    (external : List Row) : List Row × Option LoadCache :=
  match cache with
  | some c =>
      if now - c.storedAt < 600 then (c.value, some c)
      else (external, some ⟨external, now⟩)
  | none => (external, some ⟨external, now⟩)

/-- The `Start New Quiz` handler of the `quiz_finished` stage: call
`load_data_from_gsheets` (through its cache), rebuild the two counter
dictionaries from the returned table, and reset the stage, selections,
pool, cursor and score to their initial values. -/
def startNewQuiz (s : SessionState) (cache : Option LoadCache) (now : Nat)
    (external : List Row) : SessionState × Option LoadCache :=
  let loaded := load_data_from_gsheets cache now external
  let tbl := loaded.1
  ({ s with data_df := tbl,
            attempted_counts := tbl.map (fun r => (r.idx, r.attempted)),
            incorrect_attempt_counts := tbl.map (fun r => (r.idx, r.incorrect)),
            quiz_stage := .chapterSelection,
            selected_chapters := [],
            practice_mode := none,
            num_questions_to_ask := 0,
            quiz_questions := [],
            current_question_idx := 0,
            correct_answers_count := 0,
            total_questions_asked := 0 }, loaded.2)

/-- The three colour bands of the final score heading. -/
inductive ScoreBand where
  | high
  | medium
  | low
  deriving DecidableEq, Repr

/-- The percentage computed by the `quiz_finished` stage: 0 when no
questions were asked (guarding the division), else `correct / total * 100`. -/
def quizFinishedPercentage (correct total : Nat) : ℚ :=
  if total = 0 then 0 else ((correct : ℚ) / (total : ℚ)) * 100

/-- The colour band chosen by the `quiz_finished` stage: dark green when the
percentage is at least 80, dark orange when at least 70, red otherwise. -/
def quizFinishedBand (percentage : ℚ) : ScoreBand :=
  if 80 ≤ percentage then .high
  else if 70 ≤ percentage then .medium
  else .low

/-- First row of the three-question example table (chapter 1, answer `A`). -/
def exRow : Row :=
  ⟨0, 1, 1, "Q1", "optA", "optB", "optC", "optD", "A", "why1", 0, 0⟩

/-- Second row of the example table (chapter 2, answer `b`). -/
def exRow1 : Row :=
  { exRow with idx := 1, chapter := 2, questionNo := 2, correctAnswer := "b" }

/-- Third row of the example table (chapter 3, answer `C`). -/
def exRow2 : Row :=
  { exRow with idx := 2, chapter := 3, questionNo := 3, correctAnswer := "C" }

/-- The example table: three questions in chapters 1, 2, 3. -/
def exTable : List Row := [exRow, exRow1, exRow2]

/-- An in-progress session on `exTable` whose current question is `exRow`. -/
def exState : SessionState :=
  ⟨.quizInProgress, exTable, [1, 2, 3], some .normal, 1, [exRow], 0, 0, 1,
   [(0, 0), (1, 0), (2, 0)], [(0, 0), (1, 0), (2, 0)]⟩

/-- A session sitting at the chapter-selection stage on `exTable`. -/
def exChapterState : SessionState :=
  { exState with quiz_stage := .chapterSelection, quiz_questions := [],
                 selected_chapters := [], practice_mode := none,
                 num_questions_to_ask := 0, total_questions_asked := 0 }

/-- The cached copy of the single-question table, still holding
`Attempted = 5`. -/
def staleRow : Row := { exRow with attempted := 5 }

/-- The same row as the external sheet now holds it, `Attempted = 6`. -/
def freshRow : Row := { exRow with attempted := 6 }

/-- A finished session, about to restart. -/
def exFinishedState : SessionState :=
  { exState with quiz_stage := .quizFinished, correct_answers_count := 1 }

/-- The band predicate of `quizFinishedBand`, spelled out. -/
theorem quizFinishedBand_spec (p : ℚ) :
    (quizFinishedBand p = .high ↔ 80 ≤ p) ∧
    (quizFinishedBand p = .medium ↔ 70 ≤ p ∧ p < 80) ∧
    (quizFinishedBand p = .low ↔ p < 70) := by
  unfold quizFinishedBand
  split_ifs with h1 h2 <;>
    refine ⟨?_, ?_, ?_⟩ <;> simp_all <;> linarith

/-- C10: in the Finished state, a total of 0 gives percentage 0 (no
division occurs) and the low band; for a positive total the percentage is
`correct / total * 100` and the bands are: at least 80 high, at least 70
(but below 80) medium, otherwise low. -/
theorem quiz_finished_percentage_and_bands (correct total : Nat) :
    (total = 0 → quizFinishedPercentage correct total = 0 ∧
      quizFinishedBand (quizFinishedPercentage correct total) = .low) ∧
    (0 < total →
      quizFinishedPercentage correct total = ((correct : ℚ) / (total : ℚ)) * 100 ∧
      (quizFinishedBand (quizFinishedPercentage correct total) = .high ↔
        80 ≤ quizFinishedPercentage correct total) ∧
      (quizFinishedBand (quizFinishedPercentage correct total) = .medium ↔
        (70 ≤ quizFinishedPercentage correct total ∧
          quizFinishedPercentage correct total < 80)) ∧
      (quizFinishedBand (quizFinishedPercentage correct total) = .low ↔
        quizFinishedPercentage correct total < 70)) := by
  constructor
  · rintro rfl
    constructor
    · simp [quizFinishedPercentage]
    · have h0 : quizFinishedPercentage correct 0 = 0 := by simp [quizFinishedPercentage]
      rw [h0]
      exact (quizFinishedBand_spec 0).2.2.mpr (by norm_num)
  · intro hpos
    have hform : quizFinishedPercentage correct total = ((correct : ℚ) / (total : ℚ)) * 100 := by
      unfold quizFinishedPercentage
      rw [if_neg (Nat.pos_iff_ne_zero.mp hpos)]
    exact ⟨hform, (quizFinishedBand_spec _).1,
      (quizFinishedBand_spec _).2.1, (quizFinishedBand_spec _).2.2⟩

/-- Witness for C10 at `correct = 3`, `total = 4`: the percentage is 75 and
the band is the middle one. -/
theorem quiz_finished_percentage_and_bands_witness :
    quizFinishedPercentage 3 4 = ((3 : ℚ) / (4 : ℚ)) * 100 ∧
    quizFinishedBand (quizFinishedPercentage 3 4) = .medium := by
  have h := (quiz_finished_percentage_and_bands 3 4).2 (by norm_num)
  refine ⟨h.1, h.2.2.1.mpr ?_⟩
  rw [h.1]
  norm_num

/-- C2 (code bug): clicking `Start New Quiz` 10 seconds after the table was
cached does NOT re-fetch — `load_data_from_gsheets` is wrapped in
`@st.cache_data(ttl=600)` and the handler never clears that cache, so the
stale table and its stale `Attempted` counter (5, not the external 6) are
reused; the session-local resets themselves do happen. -/
theorem start_new_quiz_reuses_cached_table :
    (startNewQuiz exFinishedState (some ⟨[staleRow], 0⟩) 10 [freshRow]).1.data_df
      = [staleRow] ∧
    (startNewQuiz exFinishedState (some ⟨[staleRow], 0⟩) 10 [freshRow]).1.attempted_counts
      = [(0, 5)] ∧
    staleRow ≠ freshRow ∧
    (startNewQuiz exFinishedState (some ⟨[staleRow], 0⟩) 10 [freshRow]).1.quiz_stage
      = .chapterSelection ∧
    (startNewQuiz exFinishedState (some ⟨[staleRow], 0⟩) 10 [freshRow]).1.correct_answers_count
      = 0 := by
  refine ⟨rfl, rfl, ?_, rfl, rfl⟩
  decide

/-- C9: any failure inside `update_gsheet_cell` (authentication, unknown
column, transport) produces an error message and performs no sheet write,
and the persistence layer never changes the session state computed by the
grading step. -/
theorem update_cell_failure_reported (env : GsheetEnv) (s : SessionState)
    (choice : String) (r : Nat) (c : String) (v : Nat)
    (hfail : env.authOk = false ∨ env.headers.indexOf? c = none ∨
      env.transportOk = false) :
    (update_gsheet_cell env r c v).2 ≠ [] ∧
    (update_gsheet_cell env r c v).1 = [] ∧
    (submitWithPersistence env s choice).1 = (submitAnswer s choice).1 := by
  refine ⟨?_, ?_, rfl⟩ <;>
  · unfold update_gsheet_cell
    rcases hfail with h | h | h
    · simp [h]
    · cases hA : env.authOk
      · simp
      · simp [hA, h]
    · cases hA : env.authOk
      · simp
      · cases hI : env.headers.indexOf? c
        · simp [hA, hI]
        · simp [hA, hI, h]

/-- Witness for C9: transport failure on a well-formed write. -/
theorem update_cell_failure_reported_witness :
    (update_gsheet_cell ⟨true, ["Attempted"], false⟩ 0 "Attempted" 1).2 ≠ [] ∧
    (update_gsheet_cell ⟨true, ["Attempted"], false⟩ 0 "Attempted" 1).1 = [] ∧
    (submitWithPersistence ⟨true, ["Attempted"], false⟩ exState "a").1
      = (submitAnswer exState "a").1 :=
  update_cell_failure_reported ⟨true, ["Attempted"], false⟩ exState "a" 0 "Attempted" 1
    (Or.inr (Or.inr rfl))

/-- Writing key `k` and reading it back: the stored value when the key
exists, the default 0 otherwise (the Python dictionaries always contain
every row index). -/
theorem dictGet_dictSet (d : List (Nat × Nat)) (k v : Nat) :
    dictGet (dictSet d k v) k = if k ∈ d.map Prod.fst then v else 0 := by
  induction d with
  | nil => simp [dictGet, dictSet]
  | cons kv rest ih =>
    obtain ⟨a, b⟩ := kv
    by_cases h : a = k
    · subst h
      have h1 : dictSet ((a, b) :: rest) a v = (a, v) :: dictSet rest a v := by
        simp only [dictSet, List.map_cons]
        congr 1
      rw [h1]
      simp [dictGet]
    · have h1 : dictSet ((a, b) :: rest) k v = (a, b) :: dictSet rest k v := by
        simp only [dictSet, List.map_cons]
        congr 1
        exact if_neg h
      rw [h1]
      simp only [dictGet, if_neg h, ih, List.map_cons]
      by_cases hm : k ∈ List.map Prod.fst rest
      · rw [if_pos hm, if_pos (List.mem_cons_of_mem a hm)]
      · rw [if_neg hm,
          if_neg (fun hc => hm ((List.mem_cons.mp hc).resolve_left (Ne.symm h)))]

/-- The four radio keys are already lower-case. -/
theorem radio_key_lower (c : String) (h : c ∈ (["a", "b", "c", "d"] : List String)) :
    pyLower c = c := by
  simp only [List.mem_cons, List.not_mem_nil, or_false] at h
  rcases h with rfl | rfl | rfl | rfl <;> decide

/-- C1: grading a submission on the current question.  If the selected
radio key equals the stored correct-answer label under case-insensitive
comparison, the score rises by exactly 1, the question's incorrect counter
becomes 0 (and so never increases) and its attempted counter rises by
exactly 1; otherwise the score is unchanged, the incorrect counter rises by
exactly 1 and the attempted counter rises by exactly 1. -/
theorem submit_answer_grading (s : SessionState) (choice : String) (q : Row)
    (hq : s.quiz_questions.get? s.current_question_idx = some q)
    (hch : choice ∈ (["a", "b", "c", "d"] : List String))
    (hkA : q.idx ∈ s.attempted_counts.map Prod.fst)
    (hkI : q.idx ∈ s.incorrect_attempt_counts.map Prod.fst) :
    (pyLower choice = pyLower q.correctAnswer →
      (submitAnswer s choice).1.correct_answers_count = s.correct_answers_count + 1 ∧
      dictGet (submitAnswer s choice).1.incorrect_attempt_counts q.idx = 0 ∧
      dictGet (submitAnswer s choice).1.incorrect_attempt_counts q.idx ≤
        dictGet s.incorrect_attempt_counts q.idx ∧
      dictGet (submitAnswer s choice).1.attempted_counts q.idx =
        dictGet s.attempted_counts q.idx + 1) ∧
    (pyLower choice ≠ pyLower q.correctAnswer →
      (submitAnswer s choice).1.correct_answers_count = s.correct_answers_count ∧
      dictGet (submitAnswer s choice).1.incorrect_attempt_counts q.idx =
        dictGet s.incorrect_attempt_counts q.idx + 1 ∧
      dictGet (submitAnswer s choice).1.attempted_counts q.idx =
        dictGet s.attempted_counts q.idx + 1) := by
  have hlow : pyLower choice = choice := radio_key_lower choice hch
  rw [hlow]
  have hattA : dictGet (dictSet s.attempted_counts q.idx
      (dictGet s.attempted_counts q.idx + 1)) q.idx
      = dictGet s.attempted_counts q.idx + 1 := by
    rw [dictGet_dictSet, if_pos hkA]
  simp only [submitAnswer, hq]
  by_cases hEq : choice = pyLower q.correctAnswer
  · rw [if_pos hEq]
    refine ⟨fun _ => ⟨rfl, ?_, ?_, hattA⟩, fun hne => absurd hEq hne⟩
    · rw [dictGet_dictSet, if_pos hkI]
    · rw [dictGet_dictSet, if_pos hkI]
      exact Nat.zero_le _
  · rw [if_neg hEq]
    refine ⟨fun heq => absurd heq hEq, fun _ => ⟨rfl, ?_, hattA⟩⟩
    rw [dictGet_dictSet, if_pos hkI]

/-- Witness for C1: submitting `a` against correct answer `A` on the
example session: the score rises to 1, the incorrect counter is reset and
the attempted counter rises by 1. -/
theorem submit_answer_grading_witness :
    (submitAnswer exState "a").1.correct_answers_count
      = exState.correct_answers_count + 1 ∧
    dictGet (submitAnswer exState "a").1.incorrect_attempt_counts exRow.idx = 0 ∧
    dictGet (submitAnswer exState "a").1.attempted_counts exRow.idx
      = dictGet exState.attempted_counts exRow.idx + 1 := by
  have h := (submit_answer_grading exState "a" exRow rfl (by decide) (by decide)
    (by decide)).1 (by decide)
  exact ⟨h.1, h.2.1, h.2.2.2⟩

/-- C7 counterexample: on the example session the incorrect counter of the
current question is already 0, yet grading the correct answer still issues
a persistence write of the `Incorrect attempt` cell — the claimed
"no write when already 0" is false. -/
theorem incorrect_write_issued_at_zero_counter :
    dictGet exState.incorrect_attempt_counts exRow.idx = 0 ∧
    (exRow.idx, "Incorrect attempt", 0) ∈ (submitAnswer exState "a").2.1 := by
  decide

/-- C7 (amended): grading a correct answer always issues a persistence
write of the incorrect counter with value 0, whatever the counter held
before. -/
theorem correct_answer_always_writes_incorrect_reset (s : SessionState)
    (choice : String) (q : Row)
    (hq : s.quiz_questions.get? s.current_question_idx = some q)
    (heq : choice = pyLower q.correctAnswer) :
    (q.idx, "Incorrect attempt", 0) ∈ (submitAnswer s choice).2.1 := by
  have hz : dictGet (dictSet s.incorrect_attempt_counts q.idx 0) q.idx = 0 := by
    rw [dictGet_dictSet]
    exact ite_self 0
  simp only [submitAnswer, hq]
  rw [if_pos heq]
  simp [hz]

/-- Witness for C7's amended claim: the write is issued on the example
session, where the incorrect counter is 0. -/
theorem correct_answer_always_writes_incorrect_reset_witness :
    (exRow.idx, "Incorrect attempt", 0) ∈ (submitAnswer exState "a").2.1 :=
  correct_answer_always_writes_incorrect_reset exState "a" exRow rfl (by decide)

/-- `pySplitAux` always returns at least one piece. -/
theorem pySplitAux_ne_nil (c : Char) :
    ∀ (cs acc : List Char), pySplitAux c cs acc ≠ [] := by
  intro cs
  induction cs with
  | nil => intro acc; simp [pySplitAux]
  | cons x xs ih =>
    intro acc
    by_cases h : x = c
    · simp [pySplitAux, h]
    · simpa [pySplitAux, h] using ih (x :: acc)

/-- Splitting always returns at least one piece. -/
theorem pySplit_ne_nil (c : Char) (s : String) : pySplit c s ≠ [] :=
  pySplitAux_ne_nil c s.toList []

/-- A successful parse of a non-empty token list yields a non-empty list. -/
theorem pyIntList_ne_nil (t : String) (ts : List String) (chs : List Int)
    (h : pyIntList (t :: ts) = some chs) : chs ≠ [] := by
  unfold pyIntList at h
  split at h
  · cases h
  · split at h
    · cases h
    · injection h with h
      subst h
      simp

/-- A non-empty table has at least one chapter available. -/
theorem availableChapters_ne_nil (table : List Row) (hne : table ≠ []) :
    availableChapters table ≠ [] := by
  unfold availableChapters
  intro h
  have hperm :=
    List.perm_insertionSort (fun a b => a ≤ b) ((table.map Row.chapter).dedup)
  rw [h] at hperm
  have hd : (table.map Row.chapter).dedup = [] := List.nil_perm.mp hperm
  have hm : table.map Row.chapter = [] := (List.dedup_eq_nil _).mp hd
  exact hne (List.map_eq_nil_iff.mp hm)

/-- Every error path of `parse_chapter_input` returns the empty list. -/
theorem parse_chapter_input_shape (table : List Row) (input : String) :
    (parse_chapter_input table input).2 = none ∨
    (parse_chapter_input table input).1 = [] := by
  simp only [parse_chapter_input]
  split
  · exact Or.inl rfl
  · split
    · split
      · split
        · exact Or.inl rfl
        · exact Or.inr rfl
      · exact Or.inr rfl
    · split
      · split
        · exact Or.inl rfl
        · exact Or.inr rfl
      · exact Or.inr rfl

/-- C8: when the chapter expression is invalid (the parser reports an
error), the `Confirm Chapters` handler leaves the whole session state
unchanged — in particular the stage stays `chapter_selection` and neither
counter dictionary is touched — and the parser's error message is shown. -/
theorem invalid_chapter_input_keeps_session (s : SessionState) (input msg : String)
    (hstage : s.quiz_stage = .chapterSelection)
    (herr : (parse_chapter_input s.data_df input).2 = some msg) :
    confirmChapters s input = (s, some msg) ∧
    (confirmChapters s input).1.quiz_stage = .chapterSelection ∧
    (confirmChapters s input).1.attempted_counts = s.attempted_counts ∧
    (confirmChapters s input).1.incorrect_attempt_counts
      = s.incorrect_attempt_counts := by
  have hempty : (parse_chapter_input s.data_df input).1 = [] := by
    rcases parse_chapter_input_shape s.data_df input with h | h
    · rw [herr] at h; cases h
    · exact h
  have heq : confirmChapters s input = (s, some msg) := by
    simp [confirmChapters, hempty, herr]
  refine ⟨heq, ?_, ?_, ?_⟩ <;> rw [heq] <;> simp [hstage]

/-- Witness for C8: the malformed comma list `x,2` on the example
chapter-selection session. -/
theorem invalid_chapter_input_keeps_session_witness :
    confirmChapters exChapterState "x,2" = (exChapterState,
      some "Invalid input format. Please use comma-separated numbers or all or a range.") ∧
    (confirmChapters exChapterState "x,2").1.quiz_stage = .chapterSelection ∧
    (confirmChapters exChapterState "x,2").1.attempted_counts
      = exChapterState.attempted_counts ∧
    (confirmChapters exChapterState "x,2").1.incorrect_attempt_counts
      = exChapterState.incorrect_attempt_counts :=
  invalid_chapter_input_keeps_session exChapterState "x,2"
    "Invalid input format. Please use comma-separated numbers or all or a range."
    rfl (by decide)

/-- C5: a range expression whose two tokens parse as integers resolves to
exactly the existing chapters in the closed interval, with no error shown —
also when that filter is empty.  (The parse error of the range branch only
arises when the expression does not split into two integer tokens.) -/
theorem parse_range_exact (table : List Row) (input s1 s2 : String) (a b : Int)
    (hdash : input.toList.contains '-' = true)
    (hsplit : pySplit '-' input = [s1, s2])
    (ha : pyInt s1 = some a) (hb : pyInt s2 = some b) :
    parse_chapter_input table input =
      ((availableChapters table).filter (fun ch => a ≤ ch ∧ ch ≤ b), none) := by
  have hall : input ≠ "all" := by
    rintro rfl
    exact absurd hdash (by decide)
  simp only [parse_chapter_input]
  rw [if_neg hall, if_pos hdash, hsplit]
  simp [ha, hb]

/-- Witness for C5: `2-5` on the example table selects chapters 2 and 3,
without an error. -/
theorem parse_range_exact_witness :
    parse_chapter_input exTable "2-5" =
      ((availableChapters exTable).filter
        (fun ch => (2 : Int) ≤ ch ∧ ch ≤ (5 : Int)), none) :=
  parse_range_exact exTable "2-5" "2" "5" 2 5 (by decide) (by decide)
    (by decide) (by decide)

/-- C4 counterexample: the comma list `1,1` is accepted (no error) but the
resolved chapter list `[1, 1]` contains a duplicate. -/
theorem parse_comma_list_duplicates :
    parse_chapter_input exTable "1,1" = ([1, 1], none) ∧
    ¬ ([1, 1] : List Int).Nodup := by
  constructor
  · decide
  · decide

/-- C4 (amended): every accepted chapter expression resolves to a list of
chapters that exist in the table (possibly with repeated elements, as a
comma list may repeat a chapter), and — on a non-empty table — the result
is empty only for a range expression. -/
theorem parse_accepted_subset (table : List Row) (input : String)
    (chs : List Int) (hne : table ≠ [])
    (hacc : parse_chapter_input table input = (chs, none)) :
    (∀ c ∈ chs, c ∈ availableChapters table) ∧
    (chs = [] → input.toList.contains '-' = true) := by
  simp only [parse_chapter_input] at hacc
  by_cases hall : input = "all"
  · rw [if_pos hall] at hacc
    injection hacc with h1 h2
    subst h1
    exact ⟨fun c hc => hc,
      fun hnil => absurd hnil (availableChapters_ne_nil table hne)⟩
  · rw [if_neg hall] at hacc
    by_cases hdash : input.toList.contains '-' = true
    · rw [if_pos hdash] at hacc
      refine ⟨?_, fun _ => hdash⟩
      split at hacc
      · split at hacc
        · injection hacc with h1 h2
          subst h1
          exact fun c hc => (List.mem_filter.mp hc).1
        · injection hacc with h1 h2
          cases h2
      · injection hacc with h1 h2
        cases h2
    · rw [if_neg hdash] at hacc
      split at hacc
      · rename_i chs0 hlist
        split at hacc
        · rename_i hcontained
          injection hacc with h1 h2
          subst h1
          constructor
          · intro c hc
            have := List.all_eq_true.mp hcontained c hc
            simpa [List.contains] using this
          · intro hnil
            subst hnil
            rcases hsp : pySplit ',' input with _ | ⟨t, ts⟩
            · exact absurd hsp (pySplit_ne_nil ',' input)
            · rw [hsp] at hlist
              exact absurd rfl (pyIntList_ne_nil t ts [] hlist)
        · injection hacc with h1 h2
          cases h2
      · injection hacc with h1 h2
        cases h2

/-- Witness for C4's amended claim: the accepted list `1,2` on the example
table resolves inside the available chapters and is non-empty. -/
theorem parse_accepted_subset_witness :
    (∀ c ∈ ([1, 2] : List Int), c ∈ availableChapters exTable) ∧
    (([1, 2] : List Int) = [] → "1,2".toList.contains '-' = true) :=
  parse_accepted_subset exTable "1,2" [1, 2] (by decide) (by decide)

/-- On a dictionary with distinct keys containing `k`, keeping the keys
whose value satisfies `pb` and asking whether `k` survived is the same as
evaluating `pb` on the value stored at `k`. -/
theorem filtered_keys_contains (pb : Nat → Bool) (k : Nat) :
    ∀ (d : List (Nat × Nat)), k ∈ d.map Prod.fst → (d.map Prod.fst).Nodup →
      ((d.filter (fun kv => pb kv.2)).map Prod.fst).contains k = pb (dictGet d k) := by
  intro d
  induction d with
  | nil => intro hk _; simp at hk
  | cons kv rest ih =>
    intro hk hnd
    obtain ⟨a, b⟩ := kv
    rw [List.map_cons] at hnd hk
    have hnd1 := List.nodup_cons.mp hnd
    by_cases h : a = k
    · subst h
      have hget : dictGet ((a, b) :: rest) a = b := by simp [dictGet]
      rw [hget]
      by_cases hpb : pb b = true
      · rw [List.filter_cons_of_pos (by simpa using hpb)]
        simp [hpb]
      · rw [List.filter_cons_of_neg (by simpa using hpb)]
        have hout : a ∉ (rest.filter (fun kv => pb kv.2)).map Prod.fst := by
          intro hmem
          exact hnd1.1 (List.map_subset Prod.fst (List.filter_sublist rest).subset hmem)
        have hc : (List.map Prod.fst (List.filter (fun kv => pb kv.2) rest)).contains a
            = false := by
          rw [show (List.map Prod.fst (List.filter (fun kv => pb kv.2) rest)).contains a
              = List.elem a (List.map Prod.fst (List.filter (fun kv => pb kv.2) rest)) from rfl,
            List.elem_eq_mem, decide_eq_false hout]
        rw [hc]
        exact (Bool.eq_false_iff.mpr hpb).symm
    · have hk2 : k ∈ rest.map Prod.fst := by
        rcases List.mem_cons.mp hk with h1 | h1
        · exact absurd h1.symm h
        · exact h1
      have hget : dictGet ((a, b) :: rest) k = dictGet rest k := by
        simp [dictGet, h]
      rw [hget]
      by_cases hpb : pb b = true
      · rw [List.filter_cons_of_pos (by simpa using hpb), List.map_cons,
          List.contains_cons]
        have hba : (k == a) = false := by simp [Ne.symm h]
        rw [hba, Bool.false_or]
        exact ih hk2 hnd1.2
      · rw [List.filter_cons_of_neg (by simpa using hpb)]
        exact ih hk2 hnd1.2

/-- C6: when both counter dictionaries cover the table's row indices with
distinct keys (as `Series.to_dict()` guarantees), the `new` pool is exactly
the rows of the `normal` pool whose attempted counter is 0, the `incorrect`
pool is exactly the rows of the `normal` pool whose incorrect counter is
positive, and both are contained in the `normal` pool. -/
theorem mode_pools_refine (table : List Row) (sel : List Int)
    (A I : List (Nat × Nat))
    (hAk : ∀ r ∈ table, r.idx ∈ A.map Prod.fst)
    (hAnd : (A.map Prod.fst).Nodup)
    (hIk : ∀ r ∈ table, r.idx ∈ I.map Prod.fst)
    (hInd : (I.map Prod.fst).Nodup) :
    get_questions_for_mode_streamlit table sel .new A I =
      (get_questions_for_mode_streamlit table sel .normal A I).filter
        (fun r => dictGet A r.idx = 0) ∧
    get_questions_for_mode_streamlit table sel .incorrect A I =
      (get_questions_for_mode_streamlit table sel .normal A I).filter
        (fun r => 0 < dictGet I r.idx) ∧
    (∀ r ∈ get_questions_for_mode_streamlit table sel .new A I,
      r ∈ get_questions_for_mode_streamlit table sel .normal A I) ∧
    (∀ r ∈ get_questions_for_mode_streamlit table sel .incorrect A I,
      r ∈ get_questions_for_mode_streamlit table sel .normal A I) := by
  have hnew : get_questions_for_mode_streamlit table sel .new A I =
      (get_questions_for_mode_streamlit table sel .normal A I).filter
        (fun r => dictGet A r.idx = 0) := by
    simp only [get_questions_for_mode_streamlit]
    refine List.filter_congr ?_
    intro r hr
    have hrt : r ∈ table := (List.mem_filter.mp hr).1
    exact filtered_keys_contains (fun v => decide (v = 0)) r.idx A (hAk r hrt) hAnd
  have hinc : get_questions_for_mode_streamlit table sel .incorrect A I =
      (get_questions_for_mode_streamlit table sel .normal A I).filter
        (fun r => 0 < dictGet I r.idx) := by
    simp only [get_questions_for_mode_streamlit]
    refine List.filter_congr ?_
    intro r hr
    have hrt : r ∈ table := (List.mem_filter.mp hr).1
    exact filtered_keys_contains (fun v => decide (0 < v)) r.idx I (hIk r hrt) hInd
  refine ⟨hnew, hinc, ?_, ?_⟩
  · intro r hr
    rw [hnew] at hr
    exact (List.mem_filter.mp hr).1
  · intro r hr
    rw [hinc] at hr
    exact (List.mem_filter.mp hr).1

/-- Witness for C6 on the example table with one attempted question and one
incorrectly-answered question. -/
theorem mode_pools_refine_witness :
    get_questions_for_mode_streamlit exTable [1, 2, 3] .new
        [(0, 1), (1, 0), (2, 2)] [(0, 0), (1, 3), (2, 0)] =
      (get_questions_for_mode_streamlit exTable [1, 2, 3] .normal
        [(0, 1), (1, 0), (2, 2)] [(0, 0), (1, 3), (2, 0)]).filter
        (fun r => dictGet [(0, 1), (1, 0), (2, 2)] r.idx = 0) ∧
    get_questions_for_mode_streamlit exTable [1, 2, 3] .incorrect
        [(0, 1), (1, 0), (2, 2)] [(0, 0), (1, 3), (2, 0)] =
      (get_questions_for_mode_streamlit exTable [1, 2, 3] .normal
        [(0, 1), (1, 0), (2, 2)] [(0, 0), (1, 3), (2, 0)]).filter
        (fun r => 0 < dictGet [(0, 0), (1, 3), (2, 0)] r.idx) ∧
    (∀ r ∈ get_questions_for_mode_streamlit exTable [1, 2, 3] .new
        [(0, 1), (1, 0), (2, 2)] [(0, 0), (1, 3), (2, 0)],
      r ∈ get_questions_for_mode_streamlit exTable [1, 2, 3] .normal
        [(0, 1), (1, 0), (2, 2)] [(0, 0), (1, 3), (2, 0)]) ∧
    (∀ r ∈ get_questions_for_mode_streamlit exTable [1, 2, 3] .incorrect
        [(0, 1), (1, 0), (2, 2)] [(0, 0), (1, 3), (2, 0)],
      r ∈ get_questions_for_mode_streamlit exTable [1, 2, 3] .normal
        [(0, 1), (1, 0), (2, 2)] [(0, 0), (1, 3), (2, 0)]) :=
  mode_pools_refine exTable [1, 2, 3] [(0, 1), (1, 0), (2, 2)]
    [(0, 0), (1, 3), (2, 0)] (by decide) (by decide) (by decide) (by decide)

/-- In a duplicate-free list, the element at position `i` does not occur
once that position is erased. -/
theorem get_not_mem_eraseIdx (l : List Row) (i : Nat) (h : i < l.length)
    (hnd : l.Nodup) : l.get ⟨i, h⟩ ∉ l.eraseIdx i := by
  intro hmem
  rw [List.mem_eraseIdx_iff_getElem] at hmem
  obtain ⟨j, hj, hne, heq⟩ := hmem
  have hg : l.get ⟨j, hj⟩ = l.get ⟨i, h⟩ := heq
  have := (List.Nodup.get_inj_iff hnd).mp hg
  exact hne (congrArg Fin.val this)

/-- Sampling `n` of at least `n` rows yields exactly `n` rows. -/
theorem sampleWithoutReplacement_length (oracle : Nat → Nat) :
    ∀ (n : Nat) (l : List Row), n ≤ l.length →
      (sampleWithoutReplacement l n oracle).length = n := by
  intro n
  induction n with
  | zero => intro l h; cases l <;> simp [sampleWithoutReplacement]
  | succ m ih =>
    intro l h
    cases l with
    | nil => simp at h
    | cons x xs =>
      simp only [sampleWithoutReplacement, List.length_cons]
      have hi : oracle m % (xs.length + 1) < xs.length + 1 :=
        Nat.mod_lt _ (by omega)
      have hlen : ((x :: xs).eraseIdx (oracle m % (xs.length + 1))).length
          = xs.length := by
        rw [List.length_eraseIdx, if_pos (by simpa using hi)]
        simp
      rw [ih _ (by rw [hlen]; exact Nat.succ_le_succ_iff.mp h)]

/-- Every sampled row comes from the pool. -/
theorem sampleWithoutReplacement_subset (oracle : Nat → Nat) :
    ∀ (n : Nat) (l : List Row) (r : Row),
      r ∈ sampleWithoutReplacement l n oracle → r ∈ l := by
  intro n
  induction n with
  | zero => intro l r h; cases l <;> simp [sampleWithoutReplacement] at h
  | succ m ih =>
    intro l r h
    cases l with
    | nil => simp [sampleWithoutReplacement] at h
    | cons x xs =>
      simp only [sampleWithoutReplacement] at h
      rcases List.mem_cons.mp h with h1 | h1
      · rw [h1]; exact List.get_mem _ _ _
      · exact (List.eraseIdx_sublist (x :: xs) _).subset (ih _ _ h1)

/-- Sampling a duplicate-free pool never repeats a row. -/
theorem sampleWithoutReplacement_nodup (oracle : Nat → Nat) :
    ∀ (n : Nat) (l : List Row), l.Nodup →
      (sampleWithoutReplacement l n oracle).Nodup := by
  intro n
  induction n with
  | zero => intro l h; cases l <;> simp [sampleWithoutReplacement]
  | succ m ih =>
    intro l hnd
    cases l with
    | nil => simp [sampleWithoutReplacement]
    | cons x xs =>
      simp only [sampleWithoutReplacement]
      refine List.nodup_cons.mpr ⟨?_,
        ih _ ((List.eraseIdx_sublist (x :: xs) _).nodup hnd)⟩
      intro hmem
      exact get_not_mem_eraseIdx (x :: xs) _ _ hnd
        (sampleWithoutReplacement_subset oracle m _ _ hmem)

/-- C3: for `1 ≤ N ≤ M` (`M` the pool size, with distinct question
identities), `Start Quiz` produces exactly `N` questions with pairwise
distinct identities, all drawn from the pool, and for `N = M` the sequence
is the whole pool itself, taken without sampling. -/
theorem start_quiz_sample_distinct (s : SessionState) (pool : List Row)
    (n : Nat) (oracle : Nat → Nat)
    (h1 : 1 ≤ n) (h2 : n ≤ pool.length)
    (hnd : (pool.map Row.idx).Nodup) :
    (startQuiz s pool n oracle).1.quiz_questions.length = n ∧
    ((startQuiz s pool n oracle).1.quiz_questions.map Row.idx).Nodup ∧
    (∀ q ∈ (startQuiz s pool n oracle).1.quiz_questions, q ∈ pool) ∧
    (n = pool.length → (startQuiz s pool n oracle).1.quiz_questions = pool) := by
  have hq : (startQuiz s pool n oracle).1.quiz_questions =
      (if n < pool.length then sampleWithoutReplacement pool n oracle else pool) := by
    simp only [startQuiz]
    rw [if_pos ⟨h1, h2⟩]
  rw [hq]
  by_cases hlt : n < pool.length
  · rw [if_pos hlt]
    have hpnd : pool.Nodup := List.Nodup.of_map _ hnd
    refine ⟨sampleWithoutReplacement_length oracle n pool h2, ?_,
      fun q hq2 => sampleWithoutReplacement_subset oracle n pool q hq2,
      fun heq => absurd heq (Nat.ne_of_lt hlt)⟩
    apply List.Nodup.map_on ?_ (sampleWithoutReplacement_nodup oracle n pool hpnd)
    intro x hx y hy hxy
    exact List.inj_on_of_nodup_map hnd
      (sampleWithoutReplacement_subset oracle n pool x hx)
      (sampleWithoutReplacement_subset oracle n pool y hy) hxy
  · rw [if_neg hlt]
    have heq : pool.length = n := le_antisymm (not_lt.mp hlt) h2
    exact ⟨heq, hnd, fun q hq2 => hq2, fun _ => rfl⟩


/-- Witness for C3: sampling 2 of the 3 example questions. -/
theorem start_quiz_sample_distinct_witness :
    (startQuiz exChapterState exTable 2 (fun k => k)).1.quiz_questions.length = 2 ∧
    ((startQuiz exChapterState exTable 2 (fun k => k)).1.quiz_questions.map
      Row.idx).Nodup ∧
    (∀ q ∈ (startQuiz exChapterState exTable 2 (fun k => k)).1.quiz_questions,
      q ∈ exTable) ∧
    (2 = exTable.length →
      (startQuiz exChapterState exTable 2 (fun k => k)).1.quiz_questions = exTable) :=
  start_quiz_sample_distinct exChapterState exTable 2 (fun k => k)
    (by decide) (by decide) (by decide)

end QuizApp

